import Mathlib

/-!
Verification of the trustap-sdk operation-dispatch core against its
specification.  The TypeScript source is embedded shallowly: JavaScript
values that can appear as path parameters become the inductive `JSVal`
(carrying their stringified forms as data), objects become structures,
`Map`/`Record` lookups become association-list lookups, and functions that
can throw return `Except String`.
-/

namespace TrustapSDK

/-- The character U+007B (opening curly brace). -/
def lbrace : Char := Char.ofNat 123

/-- The character U+007D (closing curly brace). -/
def rbrace : Char := Char.ofNat 125

/-- Association-list lookup, modelling JavaScript `obj[key]` /
`Map.prototype.get` over own string keys: the first binding wins. -/
def alookup {α : Type} : List (String × α) → String → Option α
  | [], _ => none
  | (k, v) :: rest, key => if k = key then some v else alookup rest key

/-- A JavaScript value usable as a path parameter, as classified by
`toPathParamSegment` in the source.  The payload of each constructor is the
string the JavaScript runtime would produce for it (`String(value)` for
primitives, `toISOString()` for dates, the custom `toString()` result for
objects that override it), carried as data so the embedding stays
executable. -/
inductive JSVal where
  | undefined
  | nullv
  | str (s : String)
  | num (s : String)
  | bool (b : Bool)
  | bigint (s : String)
  | date (iso : String)
  | objCustomToString (s : String)
  | objPlain
deriving DecidableEq

/-- Embeds `toPathParamSegment(key, value)`: primitives stringify directly,
dates use their ISO timestamp, objects with a custom non-default
`toString` use it, and anything else throws a `TypeError` naming the
parameter. -/
def toPathParamSegment (key : String) (v : JSVal) : Except String String :=
  match v with
  | .str s => .ok s
  | .num s => .ok s
  | .bool b => .ok (if b then "true" else "false")
  | .bigint s => .ok s
  | .date iso => .ok iso
  | .objCustomToString s => .ok s
  | .objPlain => .error ("Unsupported path parameter \"" ++ key ++ "\" of type object")
  | .nullv => .error ("Unsupported path parameter \"" ++ key ++ "\" of type object")
  | .undefined => .error ("Unsupported path parameter \"" ++ key ++ "\" of type undefined")

/-- Hexadecimal digit character (uppercase), for percent-encoding. -/
def hexDigitChar (n : Nat) : Char :=
  if n < 10 then Char.ofNat (48 + n) else Char.ofNat (55 + n)

/-- UTF-8 bytes of a Unicode scalar value. -/
def charUtf8Bytes (c : Char) : List Nat :=
  let n := c.toNat
  if n < 128 then [n]
  else if n < 2048 then [192 + n / 64, 128 + n % 64]
  else if n < 65536 then [224 + n / 4096, 128 + (n / 64) % 64, 128 + n % 64]
  else [240 + n / 262144, 128 + (n / 4096) % 64, 128 + (n / 64) % 64, 128 + n % 64]

/-- `%XY` percent-escape of one byte. -/
def byteToPercentHex (b : Nat) : String :=
  String.mk ['%', hexDigitChar (b / 16), hexDigitChar (b % 16)]

/-- Characters `encodeURIComponent` leaves unescaped:
`A-Z a-z 0-9 - _ . ! ~ * ' ( )`. -/
def isUnreservedUriChar (c : Char) : Bool :=
  let n := c.toNat
  (65 ≤ n && n ≤ 90) || (97 ≤ n && n ≤ 122) || (48 ≤ n && n ≤ 57) ||
    n = 45 || n = 95 || n = 46 || n = 33 || n = 126 || n = 42 || n = 39 ||
    n = 40 || n = 41

/-- Concatenation of a list of strings. -/
def joinStrings : List String → String
  | [] => ""
  | s :: rest => s ++ joinStrings rest

/-- Embeds the platform `encodeURIComponent`: unreserved characters pass
through, everything else is percent-encoded byte-wise in UTF-8. -/
def encodeURIComponent (s : String) : String :=
  joinStrings (s.toList.map (fun c =>
    if isUnreservedUriChar c then String.singleton c
    else joinStrings ((charUtf8Bytes c).map byteToPercentHex)))

/-- One token of a parsed path template: a literal chunk or a `\x7bname\x7d`
placeholder.  Tokenising follows the source's regex
`/\x5c\x7b([^\x7b\x7d]+)\x5c\x7d/g`: a placeholder is a maximal nonempty
brace-free run enclosed in braces. -/
inductive Tok where
  | lit (s : String)
  | param (name : String)
deriving DecidableEq

/-- The literal characters a pending unmatched `\x7b` (plus the run read
after it) contributes when the scan ends or restarts; accumulators are kept
in reverse order. -/
def flushPending (lit : List Char) : Option (List Char) → List Char
  | none => lit
  | some pacc => pacc ++ lbrace :: lit

/-- Single-pass scan of a template, mirroring the source's global regex
`/\x5c\x7b([^\x7b\x7d]+)\x5c\x7d/g`: a placeholder is a nonempty
brace-free run enclosed in braces; any brace that does not complete such a
run is ordinary literal text.  `lit` is the current literal accumulator and
`pacc` the run read since a pending opening brace (both reversed). -/
def tokenizeGo : List Char → Option (List Char) → List Char → List Tok
  | lit, pacc, [] => [.lit (flushPending lit pacc).reverse.asString]
  | lit, none, c :: cs =>
    if c = lbrace then tokenizeGo lit (some []) cs
    else tokenizeGo (c :: lit) none cs
  | lit, some pa, c :: cs =>
    if c = rbrace then
      if pa.isEmpty then tokenizeGo (rbrace :: lbrace :: lit) none cs
      else
        .lit lit.reverse.asString :: .param pa.reverse.asString :: tokenizeGo [] none cs
    else if c = lbrace then tokenizeGo (pa ++ lbrace :: lit) (some []) cs
    else tokenizeGo lit (some (c :: pa)) cs

/-- Parses a template path into alternating literal and placeholder tokens.
The token list always starts and ends with a (possibly empty) literal, and
literals and placeholders strictly alternate. -/
def tokenizePath (path : String) : List Tok :=
  tokenizeGo [] none path.toList

/-- The result of `compilePathTemplate`: the literal parts produced by
splitting on the placeholder regex, and the placeholder names in order
(`parts.length = keys.length + 1`). -/
structure CompiledTemplate where
  parts : List String
  keys : List String
deriving DecidableEq

/-- The literal parts of a token list (the `split` array of the source). -/
def partsOf (ts : List Tok) : List String :=
  ts.filterMap (fun t => match t with | .lit s => some s | _ => none)

/-- The placeholder names of a token list (the `matchAll` captures). -/
def keysOf (ts : List Tok) : List String :=
  ts.filterMap (fun t => match t with | .param k => some k | _ => none)

/-- Collects the `(parts, keys)` arrays of the source's
`compilePathTemplate` from the token list (both its `matchAll` and its
`split` use the same placeholder regex, so both arrays are projections of
one tokenisation). -/
def compilePathTemplate (path : String) : CompiledTemplate :=
  let toks := tokenizePath path
  { parts := partsOf toks, keys := keysOf toks }

/-- One placeholder slot of the compiled apply function: a defined,
non-null own-property value is stringified and URL-encoded; a missing,
`undefined` or `null` value leaves the literal `\x7bkey\x7d` text. -/
def slotValue (ps : List (String × JSVal)) (k : String) : Except String String :=
  match alookup ps k with
  | some v =>
    if v = .undefined || v = .nullv then .ok ("\x7b" ++ k ++ "\x7d")
    else (toPathParamSegment k v).map encodeURIComponent
  | none => .ok ("\x7b" ++ k ++ "\x7d")

/-- The loop body of the compiled function: for each key appends the slot
value and the following literal part. -/
def renderRest (ps : List (String × JSVal)) : List String → List String → Except String String
  | [], _ => .ok ""
  | k :: ks, parts => do
    let seg ← slotValue ps k
    let tail ← renderRest ps ks parts.tail
    return seg ++ (parts.head?.getD "") ++ tail

/-- Embeds the function returned by `compilePathTemplate`: a template with
no placeholders returns the static path; absent `pathParams` return the
original path; otherwise literal parts are interleaved with resolved (or
preserved) placeholder slots. -/
def applyCompiled (ct : CompiledTemplate) (path : String)
    (pathParams : Option (List (String × JSVal))) : Except String String :=
  if ct.keys.isEmpty then .ok path
  else
    match pathParams with
    | none => .ok path
    | some ps => do
      let tail ← renderRest ps ct.keys ct.parts.tail
      return (ct.parts.head?.getD "") ++ tail

/-- `compilePathTemplate` followed by application, as a caller would use it. -/
def applyParams (path : String) (pathParams : Option (List (String × JSVal))) :
    Except String String :=
  applyCompiled (compilePathTemplate path) path pathParams

/-- The text a token contributes when its placeholder stays unresolved. -/
def tokText : Tok → String
  | .lit s => s
  | .param k => "\x7b" ++ k ++ "\x7d"

/-- Rendering of one token as the specification describes it: literal
segments pass through; a placeholder slot becomes the URL-encoded string
form of a supplied defined non-null value, and otherwise the literal
placeholder text is preserved unresolved. -/
def renderTokSpec (ps : List (String × JSVal)) : Tok → Except String String
  | .lit s => .ok s
  | .param k =>
    match alookup ps k with
    | some .undefined => .ok ("\x7b" ++ k ++ "\x7d")
    | some .nullv => .ok ("\x7b" ++ k ++ "\x7d")
    | some v => (toPathParamSegment k v).map encodeURIComponent
    | none => .ok ("\x7b" ++ k ++ "\x7d")

/-- Effectful map over a list in the `Except` monad, failing on the first
error. -/
def mapExcept {α β : Type} (f : α → Except String β) : List α → Except String (List β)
  | [] => .ok []
  | a :: rest => do
    let b ← f a
    let bs ← mapExcept f rest
    return b :: bs

/-- The specification's description of applying a compiled template:
concatenate the template's literal segments with, for each placeholder
slot, the encoded value or the preserved placeholder text. -/
def specApplyTemplate (path : String) (ps? : Option (List (String × JSVal))) :
    Except String String :=
  (mapExcept (renderTokSpec (ps?.getD [])) (tokenizePath path)).map joinStrings

theorem alookup_mem {α : Type} {l : List (String × α)} {k : String} {v : α}
    (h : alookup l k = some v) : (k, v) ∈ l := by
  induction l with
  | nil => exact absurd h (by simp [alookup])
  | cons p rest ih =>
    rw [alookup] at h
    by_cases hk : p.1 = k
    · rw [if_pos hk] at h
      cases h
      have hkp : (k, p.2) = p := by rw [← hk]
      rw [hkp]
      exact List.mem_cons_self _ _
    · rw [if_neg hk] at h
      exact List.mem_cons_of_mem _ (ih h)

theorem asString_append (a b : List Char) : (a ++ b).asString = a.asString ++ b.asString :=
  rfl

theorem reverse_cons_asString (c : Char) (l : List Char) :
    (c :: l).reverse.asString = l.reverse.asString ++ [c].asString := by
  rw [List.reverse_cons, asString_append]

theorem reverse_append_asString (a b : List Char) :
    (a ++ b).reverse.asString = b.reverse.asString ++ a.reverse.asString := by
  rw [List.reverse_append, asString_append]

theorem cons_asString (c : Char) (l : List Char) :
    (c :: l).asString = [c].asString ++ l.asString := rfl

/-- Joining the unresolved text of every token reconstructs the scanned
input (with any pending opening brace flushed as literal text). -/
theorem tokenizeGo_reconstruct (cs : List Char) :
    ∀ (lit : List Char) (pacc : Option (List Char)),
      joinStrings ((tokenizeGo lit pacc cs).map tokText)
        = (flushPending lit pacc).reverse.asString ++ cs.asString := by
  induction cs with
  | nil =>
    intro lit pacc
    rw [tokenizeGo]
    show (flushPending lit pacc).reverse.asString ++ "" = _
    simp [show (([] : List Char)).asString = "" from rfl]
  | cons c cs ih =>
    intro lit pacc
    cases pacc with
    | none =>
      rw [tokenizeGo]
      by_cases hc : c = lbrace
      · subst hc
        rw [if_pos rfl, ih]
        show (([] : List Char) ++ lbrace :: lit).reverse.asString ++ cs.asString =
          lit.reverse.asString ++ (lbrace :: cs).asString
        rw [List.nil_append, reverse_cons_asString lbrace lit, cons_asString lbrace cs,
          String.append_assoc]
      · rw [if_neg hc, ih]
        show (c :: lit).reverse.asString ++ cs.asString =
          lit.reverse.asString ++ (c :: cs).asString
        rw [reverse_cons_asString c lit, cons_asString c cs, String.append_assoc]
    | some pa =>
      rw [tokenizeGo]
      by_cases hc : c = rbrace
      · subst hc
        rw [if_pos rfl]
        by_cases hpa : pa.isEmpty
        · rw [if_pos hpa, ih]
          have hpanil : pa = [] := List.isEmpty_iff.mp hpa
          subst hpanil
          show (rbrace :: lbrace :: lit).reverse.asString ++ cs.asString =
            (([] : List Char) ++ lbrace :: lit).reverse.asString ++ (rbrace :: cs).asString
          rw [List.nil_append, reverse_cons_asString rbrace (lbrace :: lit),
            reverse_cons_asString lbrace lit, cons_asString rbrace cs,
            String.append_assoc, String.append_assoc]
        · rw [if_neg hpa]
          simp only [List.map_cons, joinStrings, tokText]
          rw [ih]
          show lit.reverse.asString ++ ([lbrace].asString ++ pa.reverse.asString ++
              [rbrace].asString ++ ((flushPending [] none).reverse.asString ++ cs.asString)) =
            (pa ++ lbrace :: lit).reverse.asString ++ (rbrace :: cs).asString
          rw [reverse_append_asString pa (lbrace :: lit), reverse_cons_asString lbrace lit,
            cons_asString rbrace cs]
          show lit.reverse.asString ++ ([lbrace].asString ++ pa.reverse.asString ++
              [rbrace].asString ++ ("" ++ cs.asString)) =
            lit.reverse.asString ++ [lbrace].asString ++ pa.reverse.asString ++
              ([rbrace].asString ++ cs.asString)
          simp [String.append_assoc]
      · rw [if_neg hc]
        by_cases hcl : c = lbrace
        · subst hcl
          rw [if_pos rfl, ih]
          show (([] : List Char) ++ lbrace :: (pa ++ lbrace :: lit)).reverse.asString ++
              cs.asString = (pa ++ lbrace :: lit).reverse.asString ++ (lbrace :: cs).asString
          rw [List.nil_append, reverse_cons_asString lbrace (pa ++ lbrace :: lit),
            cons_asString lbrace cs, String.append_assoc]
        · rw [if_neg hcl, ih]
          show ((c :: pa) ++ lbrace :: lit).reverse.asString ++ cs.asString =
            (pa ++ lbrace :: lit).reverse.asString ++ (c :: cs).asString
          rw [show (c :: pa) ++ lbrace :: lit = c :: (pa ++ lbrace :: lit) from rfl,
            reverse_cons_asString c (pa ++ lbrace :: lit), cons_asString c cs,
            String.append_assoc]

/-- Joining the unresolved text of a tokenised path gives back the path. -/
theorem tokenizePath_reconstruct (path : String) :
    joinStrings ((tokenizePath path).map tokText) = path := by
  rw [tokenizePath, tokenizeGo_reconstruct]
  show "" ++ path.toList.asString = path
  rw [String.asString_toList]
  simp

/-- Shape invariant of tokenisations: a (possibly empty) literal, then
alternating placeholder/literal pairs, ending in a literal. -/
inductive AltToks : List Tok → Prop where
  | last (s : String) : AltToks [.lit s]
  | cons (s k : String) (ts : List Tok) : AltToks ts → AltToks (.lit s :: .param k :: ts)

theorem altToks_tokenizeGo (cs : List Char) :
    ∀ (lit : List Char) (pacc : Option (List Char)), AltToks (tokenizeGo lit pacc cs) := by
  induction cs with
  | nil =>
    intro lit pacc
    rw [tokenizeGo]
    exact .last _
  | cons c cs ih =>
    intro lit pacc
    cases pacc with
    | none =>
      rw [tokenizeGo]
      by_cases hc : c = lbrace
      · rw [if_pos hc]
        exact ih _ _
      · rw [if_neg hc]
        exact ih _ _
    | some pa =>
      rw [tokenizeGo]
      by_cases hc : c = rbrace
      · rw [if_pos hc]
        by_cases hpa : pa.isEmpty
        · rw [if_pos hpa]
          exact ih _ _
        · rw [if_neg hpa]
          exact .cons _ _ _ (ih _ _)
      · rw [if_neg hc]
        by_cases hcl : c = lbrace
        · rw [if_pos hcl]
          exact ih _ _
        · rw [if_neg hcl]
          exact ih _ _

theorem altToks_tokenizePath (path : String) : AltToks (tokenizePath path) :=
  altToks_tokenizeGo path.toList [] none

theorem altToks_keys_nil {ts : List Tok} (h : AltToks ts) (hk : keysOf ts = []) :
    ∃ s, ts = [.lit s] := by
  cases h with
  | last s => exact ⟨s, rfl⟩
  | cons s k ts' h' => exact absurd hk (by simp [keysOf, List.filterMap_cons])

@[simp] theorem exceptBind_ok {α β : Type} (a : α) (f : α → Except String β) :
    (Except.ok a >>= f) = f a := rfl

@[simp] theorem exceptBind_error {α β : Type} (e : String) (f : α → Except String β) :
    ((Except.error e : Except String α) >>= f) = Except.error e := rfl

@[simp] theorem exceptMap_ok {α β : Type} (f : α → β) (a : α) :
    (Except.ok a : Except String α).map f = Except.ok (f a) := rfl

@[simp] theorem exceptMap_error {α β : Type} (f : α → β) (e : String) :
    (Except.error e : Except String α).map f = (Except.error e : Except String β) := rfl

@[simp] theorem exceptFmap_ok {α β : Type} (f : α → β) (a : α) :
    (f <$> (Except.ok a : Except String α)) = Except.ok (f a) := rfl

@[simp] theorem exceptFmap_error {α β : Type} (f : α → β) (e : String) :
    (f <$> (Except.error e : Except String α)) = (Except.error e : Except String β) := rfl

@[simp] theorem exceptPure {α : Type} (a : α) :
    (pure a : Except String α) = Except.ok a := rfl

@[simp] theorem renderTokSpec_lit (ps : List (String × JSVal)) (s : String) :
    renderTokSpec ps (.lit s) = .ok s := rfl

theorem renderTokSpec_param (ps : List (String × JSVal)) (k : String) :
    renderTokSpec ps (.param k) = slotValue ps k := by
  rw [renderTokSpec, slotValue]
  cases alookup ps k with
  | none => rfl
  | some v => cases v <;> rfl

/-- The loop of the compiled template function agrees with the
specification's per-token rendering on any alternating token list. -/
theorem renderRest_spec (ps : List (String × JSVal)) {ts : List Tok} (h : AltToks ts) :
    (renderRest ps (keysOf ts) (partsOf ts).tail).map
        (fun tail => (partsOf ts).head?.getD "" ++ tail)
      = (mapExcept (renderTokSpec ps) ts).map joinStrings := by
  induction h with
  | last s =>
    simp [partsOf, keysOf, List.filterMap_cons, renderRest, renderTokSpec,
      joinStrings, Except.map, mapExcept]
  | cons s k ts' h ih =>
    have hparts : partsOf (.lit s :: .param k :: ts') = s :: partsOf ts' := by
      simp [partsOf, List.filterMap_cons]
    have hkeys : keysOf (.lit s :: .param k :: ts') = k :: keysOf ts' := by
      simp [keysOf, List.filterMap_cons]
    rw [hparts, hkeys]
    rcases hslot : slotValue ps k with e | seg
    · simp [renderRest, hslot, renderTokSpec_param, Except.map, mapExcept]
    · rcases hr : renderRest ps (keysOf ts') (partsOf ts').tail with e | tail
      · rw [hr] at ih
        rcases hm : mapExcept (renderTokSpec ps) ts' with e' | L <;> rw [hm] at ih <;>
          simp [Except.map] at ih
        subst ih
        simp [renderRest, hslot, hr, renderTokSpec_param, hm, Except.map, mapExcept]
      · rw [hr] at ih
        rcases hm : mapExcept (renderTokSpec ps) ts' with e' | L <;> rw [hm] at ih <;>
          simp [Except.map] at ih
        simp [renderRest, hslot, hr, renderTokSpec_param, hm, Except.map, joinStrings,
          mapExcept, ← ih, String.append_assoc]

theorem renderTokSpec_noParams (t : Tok) : renderTokSpec [] t = .ok (tokText t) := by
  cases t with
  | lit s => rfl
  | param k => rfl

theorem mapExcept_of_forall_ok {α β : Type} (f : α → Except String β) (g : α → β)
    (l : List α) (h : ∀ a, f a = .ok (g a)) : mapExcept f l = .ok (l.map g) := by
  induction l with
  | nil => rfl
  | cons a rest ih => simp [mapExcept, h a, ih]

theorem mapExcept_isOk {α β : Type} (f : α → Except String β) (l : List α)
    (h : ∀ a ∈ l, ∃ b, f a = .ok b) : ∃ bs, mapExcept f l = .ok bs := by
  induction l with
  | nil => exact ⟨[], rfl⟩
  | cons a rest ih =>
    obtain ⟨b, hb⟩ := h a (by simp)
    obtain ⟨bs, hbs⟩ := ih (fun x hx => h x (by simp [hx]))
    exact ⟨b :: bs, by simp [mapExcept, hb, hbs]⟩

theorem applyParams_eq_spec (path : String) (ps? : Option (List (String × JSVal))) :
    applyParams path ps? = specApplyTemplate path ps? := by
  rw [applyParams, specApplyTemplate, applyCompiled.eq_def, compilePathTemplate]
  by_cases hk : (keysOf (tokenizePath path)).isEmpty = true
  · obtain ⟨s, hs⟩ :=
      altToks_keys_nil (altToks_tokenizePath path) (List.isEmpty_iff.mp hk)
    have hpath : s = path := by
      have := tokenizePath_reconstruct path
      rw [hs] at this
      simpa [tokText, joinStrings] using this
    rw [hs]
    subst hpath
    simp [keysOf, partsOf, List.filterMap_cons, mapExcept, joinStrings, Except.map]
  · simp only [hk, Bool.false_eq_true, if_false]
    match ps? with
    | none =>
      rw [mapExcept_of_forall_ok (renderTokSpec (Option.getD none []))
        tokText (tokenizePath path) renderTokSpec_noParams]
      simp [Except.map, tokenizePath_reconstruct path]
    | some ps =>
      have hspec := renderRest_spec ps (altToks_tokenizePath path)
      simp only [Option.getD_some]
      show (do
        let tail ← renderRest ps (keysOf (tokenizePath path)) (partsOf (tokenizePath path)).tail
        pure ((partsOf (tokenizePath path)).head?.getD "" ++ tail) : Except String String) = _
      rw [← hspec]
      rcases hr : renderRest ps (keysOf (tokenizePath path)) (partsOf (tokenizePath path)).tail
        with e | tail <;> simp [Except.map]

/-- C5: `applyParams` concatenates the template's literal segments with,
for each placeholder slot, the URL-encoded string form of a supplied
defined non-null value (primitives stringify directly, dates use their
standard timestamp, custom stringifications are honoured) and otherwise
the literal `\x7bname\x7d` text preserved unresolved; a missing, null, or
undefined value is never an error. -/
theorem c5_applyParams_renders_per_spec (path : String)
    (ps? : Option (List (String × JSVal))) :
    applyParams path ps? = specApplyTemplate path ps?
    ∧ ((∀ p ∈ ps?.getD [], p.2 ≠ JSVal.objPlain) →
        ∃ out, applyParams path ps? = .ok out) := by
  refine ⟨applyParams_eq_spec path ps?, fun hps => ?_⟩
  rw [applyParams_eq_spec path ps?, specApplyTemplate]
  have hall : ∀ t ∈ tokenizePath path, ∃ b, renderTokSpec (ps?.getD []) t = .ok b := by
    intro t _
    cases t with
    | lit s => exact ⟨s, rfl⟩
    | param k =>
      rcases halk : alookup (ps?.getD []) k with _ | v
      · exact ⟨"\x7b" ++ k ++ "\x7d", by rw [renderTokSpec_param, slotValue, halk]⟩
      · have hv : v ≠ JSVal.objPlain := hps (k, v) (alookup_mem halk)
        cases v <;> first
          | exact absurd rfl hv
          | exact ⟨_, by rw [renderTokSpec_param, slotValue, halk]; rfl⟩
  obtain ⟨bs, hbs⟩ := mapExcept_isOk (renderTokSpec (ps?.getD [])) (tokenizePath path) hall
  exact ⟨joinStrings bs, by rw [hbs]; rfl⟩

/-- Witness for C5 at the specification's own example: the template
`/users/\x7buserId\x7d/posts/\x7bpostId\x7d` with only `userId` supplied
resolves that slot and preserves the other placeholder, with no error. -/
theorem c5_witness :
    applyParams "/users/{userId}/posts/{postId}" (some [("userId", JSVal.str "123")])
      = .ok "/users/123/posts/{postId}" := by
  have h := (c5_applyParams_renders_per_spec "/users/{userId}/posts/{postId}"
    (some [("userId", JSVal.str "123")])).2 (by decide)
  obtain ⟨out, hout⟩ := h
  rw [hout]
  have : out = "/users/123/posts/{postId}" := by
    have := hout.symm.trans (rfl : applyParams "/users/{userId}/posts/{postId}"
      (some [("userId", JSVal.str "123")]) = applyParams "/users/{userId}/posts/{postId}"
      (some [("userId", JSVal.str "123")]))
    exact Except.ok.inj (by rw [← hout]; rfl)
  rw [this]

/-! ## Webhook state mapping (src/webhooks/state.ts and the standalone
state-machine module)

Transaction states are string literals in the source, so they are modelled
as `String`; the mappers return `Option String` (`none` models `null`). -/

/-- The fixed closed set of online webhook event codes
(`onlineWebhookEventCodes` in src/webhooks/state.ts). -/
def onlineWebhookEventCodes : List String :=
  ["basic_tx.joined",
   "basic_tx.rejected",
   "basic_tx.cancelled",
   "basic_tx.claimed",
   "basic_tx.listing_transaction_accepted",
   "basic_tx.listing_transaction_rejected",
   "basic_tx.payment_failed",
   "basic_tx.paid",
   "basic_tx.payment_refunded",
   "basic_tx.payment_review_flagged",
   "basic_tx.payment_review_finished",
   "basic_tx.tracking_details_submission_deadline_extended",
   "basic_tx.tracked",
   "basic_tx.delivered",
   "basic_tx.complained",
   "basic_tx.complaint_period_ended",
   "basic_tx.funds_released",
   "basic_tx.funds_refunded"]

/-- The `eventStateMap` table of `mapWebhookToOnlineState`. -/
def onlineEventStateMap : List (String × String) :=
  [("basic_tx.joined", "joined"),
   ("basic_tx.rejected", "rejected"),
   ("basic_tx.cancelled", "cancelled"),
   ("basic_tx.claimed", "created"),
   ("basic_tx.listing_transaction_accepted", "joined"),
   ("basic_tx.listing_transaction_rejected", "rejected"),
   ("basic_tx.payment_failed", "created"),
   ("basic_tx.paid", "paid"),
   ("basic_tx.payment_refunded", "payment_refunded"),
   ("basic_tx.payment_review_flagged", "paid"),
   ("basic_tx.payment_review_finished", "paid"),
   ("basic_tx.tracking_details_submission_deadline_extended", "tracked"),
   ("basic_tx.tracked", "tracked"),
   ("basic_tx.delivered", "delivered"),
   ("basic_tx.complained", "complained"),
   ("basic_tx.complaint_period_ended", "complaint_period_ended"),
   ("basic_tx.funds_released", "funds_released"),
   ("basic_tx.funds_refunded", "payment_refunded")]

/-- Embeds `mapWebhookToOnlineState` (src/webhooks/state.ts): membership
check against the closed code set, then table lookup with `?? null`. -/
def mapWebhookToOnlineState (eventType : String) : Option String :=
  if onlineWebhookEventCodes.contains eventType then
    match alookup onlineEventStateMap eventType with
    | some s => some s
    | none => none
  else none

/-- The fixed set of webhook event codes in the standalone state-machine
module (`trustapWebhookEventCodes`). -/
def trustapWebhookEventCodes : List String :=
  ["basic_tx.joined",
   "basic_tx.rejected",
   "basic_tx.cancelled",
   "basic_tx.claimed",
   "basic_tx.listing_transaction_accepted",
   "basic_tx.listing_transaction_rejected",
   "basic_tx.payment_failed",
   "basic_tx.paid",
   "basic_tx.payment_refunded",
   "basic_tx.payment_review_flagged",
   "basic_tx.payment_review_finished",
   "basic_tx.tracking_details_submission_deadline_extended",
   "basic_tx.tracked",
   "basic_tx.delivered",
   "basic_tx.complained",
   "basic_tx.complaint_period_ended",
   "basic_tx.funds_released",
   "basic_tx.funds_refunded"]

/-- The `eventStateMap` table of `mapWebhookToTrustapState` in the
standalone state-machine module. -/
def trustapEventStateMap : List (String × String) :=
  [("basic_tx.joined", "joined"),
   ("basic_tx.rejected", "rejected"),
   ("basic_tx.cancelled", "cancelled"),
   ("basic_tx.claimed", "created"),
   ("basic_tx.listing_transaction_accepted", "joined"),
   ("basic_tx.listing_transaction_rejected", "rejected"),
   ("basic_tx.payment_failed", "created"),
   ("basic_tx.paid", "paid"),
   ("basic_tx.payment_refunded", "payment_refunded"),
   ("basic_tx.payment_review_flagged", "paid"),
   ("basic_tx.payment_review_finished", "paid"),
   ("basic_tx.tracking_details_submission_deadline_extended", "tracked"),
   ("basic_tx.tracked", "tracked"),
   ("basic_tx.delivered", "delivered"),
   ("basic_tx.complained", "complained"),
   ("basic_tx.complaint_period_ended", "complaint_period_ended"),
   ("basic_tx.funds_released", "funds_released"),
   ("basic_tx.funds_refunded", "payment_refunded")]

/-- Embeds `mapWebhookToTrustapState` (standalone state-machine module). -/
def mapWebhookToTrustapState (eventType : String) : Option String :=
  if trustapWebhookEventCodes.contains eventType then
    match alookup trustapEventStateMap eventType with
    | some s => some s
    | none => none
  else none

/-- C9: `mapWebhookToOnlineState` is total over strings: every code in the
fixed known set maps to a non-null concrete lifecycle state, and every
string outside that set maps to `null`; there is no thrown error and no
default-state fallback. -/
theorem c9_mapWebhookToOnlineState_total :
    (∀ c ∈ onlineWebhookEventCodes, (mapWebhookToOnlineState c).isSome = true)
    ∧ (∀ s : String, s ∉ onlineWebhookEventCodes → mapWebhookToOnlineState s = none) := by
  constructor
  · decide
  · intro s hs
    rw [mapWebhookToOnlineState, if_neg]
    simpa using hs

/-- Witness for C9: a known code maps to a state, an unknown one to `null`. -/
theorem c9_witness :
    (mapWebhookToOnlineState "basic_tx.paid").isSome = true
    ∧ mapWebhookToOnlineState "basic_tx.not_a_code" = none :=
  ⟨c9_mapWebhookToOnlineState_total.1 "basic_tx.paid" (by decide),
   c9_mapWebhookToOnlineState_total.2 "basic_tx.not_a_code" (by decide)⟩

/-- C10: the two independently defined online webhook mappers are
extensionally equal — same known-code set and same code-to-state table. -/
theorem c10_online_mappers_agree (s : String) :
    mapWebhookToTrustapState s = mapWebhookToOnlineState s := rfl

/-! ## Request option normalisation (`normalizeRequestOptions`) -/

/-- A JavaScript value stored under `params.query`; `undefined` models both an
absent key and a key holding `undefined` (the source only tests
`=== undefined`), `val` any defined value. -/
inductive JVal where
  | undefined
  | val (v : Nat)
deriving DecidableEq

/-- The `params` object of a request-options object: its `query` value, its
`path` record (`none` models absent/`undefined`/`null`), and a stand-in for
any other own properties (copied verbatim by the spread). -/
structure ParamsObj where
  query : JVal
  path : Option (List (String × JSVal))
  rest : Nat
deriving DecidableEq

/-- The `params` property of an options object: absent/falsy, present but
not an object, or an object. -/
inductive ParamsField where
  | absent
  | notObj
  | isObj (p : ParamsObj)
deriving DecidableEq

/-- A request-options object: whether it has an own `query` property and
that property's value, its `params` property, and a stand-in for its other
own properties. -/
structure ReqOptions where
  hasQuery : Bool
  queryVal : JVal
  params : ParamsField
  rest : Nat
deriving DecidableEq

/-- The shallow copy `\x7b ...original.params \x7d` taken when `params` is a
truthy object (`undefined` otherwise). -/
def copyParams : ParamsField → Option ParamsObj
  | .isObj p => some p
  | _ => none

/-- Embeds `normalizeRequestOptions`: an own `query` property is folded
into `params.query` when that is still `undefined`, the top-level `query`
key is dropped, and an existing `params` object is shallow-copied. -/
def normalizeRequestOptions (o : ReqOptions) : ReqOptions :=
  let params := copyParams o.params
  if o.hasQuery then
    let nextParams := params.getD { query := .undefined, path := none, rest := 0 }
    let nextParams :=
      if nextParams.query = .undefined then { nextParams with query := o.queryVal }
      else nextParams
    { hasQuery := false, queryVal := .undefined, params := .isObj nextParams, rest := o.rest }
  else
    match params with
    | some p => { o with params := .isObj p }
    | none => o

/-- The `params.query` value of an options object (`undefined` when `params`
is not an object). -/
def paramsQueryOf (o : ReqOptions) : JVal :=
  match o.params with
  | .isObj p => p.query
  | _ => .undefined

/-- C4: for every options object with an own `query` property,
normalisation folds that value into `params.query` only when `params.query`
is not already set (an already-set `params.query` wins and the legacy value
is discarded), and the output object never carries a top-level `query`
key — query data lives solely under `params.query`. -/
theorem c4_normalize_query_folding (o : ReqOptions) (h : o.hasQuery = true) :
    (normalizeRequestOptions o).hasQuery = false
    ∧ paramsQueryOf (normalizeRequestOptions o) =
        (match o.params with
         | .isObj p => if p.query = .undefined then o.queryVal else p.query
         | _ => o.queryVal) := by
  constructor
  · simp [normalizeRequestOptions, h]
  · rcases hp : o.params with _ | _ | p
    · simp [normalizeRequestOptions, h, hp, copyParams, paramsQueryOf]
    · simp [normalizeRequestOptions, h, hp, copyParams, paramsQueryOf]
    · by_cases hq : p.query = JVal.undefined
      · simp [normalizeRequestOptions, h, hp, copyParams, paramsQueryOf, hq]
      · simp [normalizeRequestOptions, h, hp, copyParams, paramsQueryOf, hq]

/-- Witness for C4: with a legacy `query` value and `params.query` already
set, the output keeps the existing `params.query` and drops the top-level
`query`; with `params.query` unset, the legacy value is folded in. -/
theorem c4_witness :
    ((normalizeRequestOptions
        { hasQuery := true, queryVal := .val 7,
          params := .isObj { query := .val 9, path := none, rest := 0 }, rest := 0 }).hasQuery
        = false
      ∧ paramsQueryOf (normalizeRequestOptions
          { hasQuery := true, queryVal := .val 7,
            params := .isObj { query := .val 9, path := none, rest := 0 }, rest := 0 })
        = .val 9)
    ∧ paramsQueryOf (normalizeRequestOptions
        { hasQuery := true, queryVal := .val 7, params := .absent, rest := 0 }) = .val 7 := by
  refine ⟨⟨?_, ?_⟩, ?_⟩
  · exact (c4_normalize_query_folding
      { hasQuery := true, queryVal := .val 7,
        params := .isObj { query := .val 9, path := none, rest := 0 }, rest := 0 } rfl).1
  · have h2 := (c4_normalize_query_folding
      { hasQuery := true, queryVal := .val 7,
        params := .isObj { query := .val 9, path := none, rest := 0 }, rest := 0 } rfl).2
    rw [h2]
    decide
  · have h3 := (c4_normalize_query_folding
      { hasQuery := true, queryVal := .val 7, params := .absent, rest := 0 } rfl).2
    rw [h3]

/-! ## Security map lookup (`resolveSecuritySchemes`) -/

/-- One compiled pattern entry: the anchored path regex (kept as the
template's tokens, a placeholder standing for `[^/]+`) and its
method-to-schemes record. -/
structure SecPattern where
  toks : List Tok
  methods : List (String × List String)
deriving DecidableEq

/-- The result of `compileSecurityMap`: an exact index and an ordered
pattern list. -/
structure CompiledSecurityMap where
  exact : List (String × List (String × List String))
  patterns : List SecPattern
deriving DecidableEq

/-- Fuelled anchored matching of a compiled pattern against a pathname:
a literal token must match verbatim, a placeholder token matches one or
more non-`/` characters (with backtracking, i.e. plain regex semantics).
The fuel only bounds the recursion; `toksMatch` supplies enough for the
recursion always to complete. -/
def toksMatchFuel : Nat → List Tok → List Char → Bool
  | 0, _, _ => false
  | _ + 1, [], cs => cs.isEmpty
  | fuel + 1, .lit s :: ts, cs =>
    (cs.take s.length = s.toList : Bool) && toksMatchFuel fuel ts (cs.drop s.length)
  | _ + 1, .param _ :: _, [] => false
  | fuel + 1, .param n :: ts, c :: cs =>
    !(c = '/' : Bool) && (toksMatchFuel fuel ts cs || toksMatchFuel fuel (.param n :: ts) cs)

/-- `regex.test(pathname)` for a compiled `^...$` pattern: every recursive
step of `toksMatchFuel` strictly decreases `ts.length + cs.length`, so this
fuel suffices. -/
def toksMatch (ts : List Tok) (cs : List Char) : Bool :=
  toksMatchFuel (ts.length + cs.length + 1) ts cs

/-- The pattern-scanning loop of `resolveSecuritySchemes`: first pattern
whose regex matches the pathname and whose method entry is present wins;
a matching pattern without the method falls through to later patterns. -/
def scanPatterns : List SecPattern → String → String → List String
  | [], _, _ => []
  | p :: ps, pathname, method =>
    if toksMatch p.toks pathname.toList then
      match alookup p.methods method with
      | some schemes => schemes
      | none => scanPatterns ps pathname method
    else scanPatterns ps pathname method

/-- Embeds `resolveSecuritySchemes`: exact index first (returning its
schemes when the method entry is present, an explicitly stored empty list
included), then the pattern scan, then the empty list. -/
def resolveSecuritySchemes (compiled : CompiledSecurityMap)
    (pathname method : String) : List String :=
  match alookup compiled.exact pathname with
  | some exactMethods =>
    match alookup exactMethods method with
    | some schemes => schemes
    | none => scanPatterns compiled.patterns pathname method
  | none => scanPatterns compiled.patterns pathname method

/-- The lookup as the specification (amended to the code's fall-through)
describes it: exact hit with the method present wins; otherwise the first
pattern in declaration order whose regex matches and whose method entry is
present; otherwise the empty list. -/
def specResolveSecuritySchemes (compiled : CompiledSecurityMap)
    (pathname method : String) : List String :=
  match (alookup compiled.exact pathname).bind (fun mm => alookup mm method) with
  | some schemes => schemes
  | none =>
    match compiled.patterns.find? (fun p =>
        toksMatch p.toks pathname.toList && (alookup p.methods method).isSome) with
    | some p => (alookup p.methods method).getD []
    | none => []

theorem scanPatterns_eq_find (ps : List SecPattern) (pathname method : String) :
    scanPatterns ps pathname method =
      (match ps.find? (fun p => toksMatch p.toks pathname.toList &&
          (alookup p.methods method).isSome) with
       | some p => (alookup p.methods method).getD []
       | none => []) := by
  induction ps with
  | nil => rfl
  | cons p ps ih =>
    by_cases hm : toksMatch p.toks pathname.data = true <;>
      rcases ha : alookup p.methods method with _ | schemes <;>
        simp [scanPatterns, hm, ha, ih, List.find?_cons]

/-- C2 (amended): `resolveSecuritySchemes` tries the exact index first and
returns its scheme list when the pathname *and* method are present there
(an explicitly empty list included); otherwise — on an exact-path miss *or*
when the method is absent from the exact entry — it scans the pattern list
in declaration order, returning the first pattern whose regex matches the
full pathname and whose method entry is present (an explicitly empty list
counts as a match terminating the scan); with no match anywhere it returns
the empty scheme list. -/
theorem c2_amended_resolve_matches_spec (compiled : CompiledSecurityMap)
    (pathname method : String) :
    resolveSecuritySchemes compiled pathname method =
      specResolveSecuritySchemes compiled pathname method := by
  rw [resolveSecuritySchemes, specResolveSecuritySchemes]
  rcases he : alookup compiled.exact pathname with _ | exactMethods
  · rw [scanPatterns_eq_find]
    rfl
  · rcases hm : alookup exactMethods method with _ | schemes <;>
      simp only [Option.some_bind, hm] <;> rw [scanPatterns_eq_find]

/-- A compiled security map with an exact entry for `/a` carrying only GET
and a pattern for `/\x7bx\x7d` carrying only POST. -/
def c2CounterexampleMap : CompiledSecurityMap :=
  { exact := [("/a", [("GET", ["X"])])],
    patterns := [{ toks := tokenizePath "/{x}", methods := [("POST", ["Y"])] }] }

/-- Counterexample to C2 as stated: on the exact-path hit `/a` with method
`POST` absent from the exact entry, the lookup does *not* return the empty
list — it falls through to the pattern scan and returns the pattern's
schemes. -/
theorem c2_counterexample :
    alookup c2CounterexampleMap.exact "/a" = some [("GET", ["X"])]
    ∧ alookup [("GET", ["X"])] "POST" = (none : Option (List String))
    ∧ resolveSecuritySchemes c2CounterexampleMap "/a" "POST" = ["Y"]
    ∧ (["Y"] : List String) ≠ [] := by
  refine ⟨by decide, by decide, by decide, by decide⟩

/-! ## Path joining and the operation dispatcher -/

/-- Kernel-evaluable list version of string prefix testing. -/
def listIsPrefix : List Char → List Char → Bool
  | [], _ => true
  | _ :: _, [] => false
  | p :: ps, c :: cs => (p == c) && listIsPrefix ps cs

/-- `String.prototype.startsWith`. -/
def strStartsWith (s pre : String) : Bool :=
  listIsPrefix pre.toList s.toList

/-- `String.prototype.endsWith`. -/
def strEndsWith (s suffix : String) : Bool :=
  listIsPrefix suffix.toList.reverse s.toList.reverse

/-- `String.prototype.slice(n)` for a nonnegative start. -/
def strDrop (s : String) (n : Nat) : String :=
  (s.toList.drop n).asString

/-- Common whitespace recognised by `String.prototype.trim`. -/
def isJsSpace (c : Char) : Bool :=
  c = ' ' || c = '\t' || c = '\n' || c = '\r'

/-- `String.prototype.trim`. -/
def strTrim (s : String) : String :=
  ((s.toList.dropWhile isJsSpace).reverse.dropWhile isJsSpace).reverse.asString

/-- Embeds `removeTrailingSlash`. -/
def removeTrailingSlash (value : String) : String :=
  (value.toList.reverse.dropWhile (fun c => c = '/')).reverse.asString

/-- Embeds `normalizeBasePath` (`none` and `""` are both falsy inputs). -/
def normalizeBasePath (basePath : Option String) : String :=
  match basePath with
  | none => ""
  | some bp =>
    if bp = "" then ""
    else
      let trimmed := strTrim bp
      if trimmed = "" || trimmed = "/" then ""
      else
        let withLeadingSlash := if strStartsWith trimmed "/" then trimmed else "/" ++ trimmed
        removeTrailingSlash withLeadingSlash

/-- `replaceAll` of runs of slashes by a single slash. -/
def collapseGo : List Char → List Char
  | [] => []
  | [c] => [c]
  | c1 :: c2 :: rest =>
    if c1 = '/' && c2 = '/' then collapseGo (c2 :: rest)
    else c1 :: collapseGo (c2 :: rest)

/-- `replaceAll(/\x5c\x2f+/g, "/")` on a string. -/
def collapseSlashes (s : String) : String :=
  (collapseGo s.toList).asString

/-- Embeds `joinPaths`. -/
def joinPaths (basePath path : String) : String :=
  let sanitizedBase := normalizeBasePath (some basePath)
  let hasLeadingSlash := strStartsWith path "/"
  let relative := if hasLeadingSlash then strDrop path 1 else path
  if sanitizedBase = "" then (if hasLeadingSlash then path else "/" ++ relative)
  else if relative = "" then sanitizedBase
  else collapseSlashes (sanitizedBase ++ "/" ++ relative)

/-- `toUpperCase` restricted to ASCII (HTTP method strings are ASCII). -/
def asciiUpper (s : String) : String := (s.toList.map Char.toUpper).asString

/-- The HTTP verbs of the dispatch switch. -/
inductive HttpMethod where
  | GET | POST | PUT | PATCH | DELETE | HEAD | OPTIONS
deriving DecidableEq

/-- Which arm of the dispatch switch an uppercased method string selects;
`none` selects the `default` arm. -/
def parseVerb (upper : String) : Option HttpMethod :=
  if upper = "GET" then some .GET
  else if upper = "POST" then some .POST
  else if upper = "PUT" then some .PUT
  else if upper = "PATCH" then some .PATCH
  else if upper = "DELETE" then some .DELETE
  else if upper = "HEAD" then some .HEAD
  else if upper = "OPTIONS" then some .OPTIONS
  else none

/-- One entry of `operationIdToPath`. -/
structure OpMapping where
  path : String
  method : String
deriving DecidableEq

/-- The handler the proxy `get` trap builds on first access of a known
operation id: it closes over the operation id, the mapping's method, the
joined template path and its compiled form. -/
structure Handler where
  opId : String
  method : String
  templatePath : String
  compiled : CompiledTemplate
deriving DecidableEq

/-- Embeds the handler-construction part of the `get` trap (everything
before the returned closure): join the base path, compile the template.
This code path contains no `throw`, so construction is a total function. -/
def buildHandler (basePath opId : String) (m : OpMapping) : Handler :=
  let templatePath := joinPaths basePath m.path
  { opId := opId, method := m.method, templatePath := templatePath,
    compiled := compilePathTemplate templatePath }

/-- Embeds `getParams`: the `params` property when it is an object. -/
def getParams (o : ReqOptions) : Option ParamsObj :=
  match o.params with
  | .isObj p => some p
  | _ => none

/-- The transport call a successful handler invocation performs. -/
structure DispatchCall where
  verb : HttpMethod
  path : String
  options : Option ReqOptions
deriving DecidableEq

/-- Embeds the handler closure: normalise the options, extract
`params.path`, apply the compiled template, then dispatch on the
uppercased verb; the `default` switch arm throws naming the method and
operation id. -/
def invokeHandler (h : Handler) (requestOptions : Option ReqOptions) :
    Except String DispatchCall := do
  let optionsToSend := requestOptions.map normalizeRequestOptions
  let params := optionsToSend.bind getParams
  let finalPath ← applyCompiled h.compiled h.templatePath (params.bind (fun p => p.path))
  match parseVerb (asciiUpper h.method) with
  | some v => .ok { verb := v, path := finalPath, options := optionsToSend }
  | none => .error ("Unsupported method " ++ h.method ++ " for " ++ h.opId)

/-- A value readable off the merged dispatcher object. -/
inductive PropValue where
  | raw (v : Nat)
  | handler (h : Handler)
deriving DecidableEq

/-- Embeds the proxy `get` trap of `byOperationId`: `then` reads yield
`undefined`, populated target properties are returned as-is, a known
operation id builds (and would cache) its handler, and anything else
yields `undefined` (`none`) without raising. -/
def byOperationIdGet (target : List (String × PropValue))
    (operationIdToPath : List (String × OpMapping)) (basePath : String)
    (prop : String) : Option PropValue :=
  if prop = "then" then none
  else
    match alookup target prop with
    | some v => some v
    | none =>
      match alookup operationIdToPath prop with
      | none => none
      | some m => some (.handler (buildHandler basePath prop m))

/-- C7: reading any string property that is neither populated on the
merged client object nor a known operation id yields `undefined` without
raising; the dispatch surface is total over property reads. -/
theorem c7_unknown_operation_yields_undefined
    (target : List (String × PropValue)) (opMap : List (String × OpMapping))
    (basePath prop : String)
    (htarget : alookup target prop = none) (hmap : alookup opMap prop = none) :
    byOperationIdGet target opMap basePath prop = none := by
  rw [byOperationIdGet]
  by_cases hthen : prop = "then"
  · rw [if_pos hthen]
  · rw [if_neg hthen, htarget, hmap]

/-- Witness for C7: `dispatcher["no.such.op"]` is `undefined` on a client
whose operation map knows only `basic.getCharge`. -/
theorem c7_witness :
    byOperationIdGet []
      [("basic.getCharge", { path := "/charge", method := "get" })]
      "/api/v4" "no.such.op" = none :=
  c7_unknown_operation_yields_undefined []
    [("basic.getCharge", { path := "/charge", method := "get" })]
    "/api/v4" "no.such.op" (by decide) (by decide)

/-- Counterexample to C1 as stated: for the mapping `\x7bpath: "/x",
method: "TRACE"\x7d` the `get` trap builds and returns a handler without
raising (construction is total and yields this well-formed handler), and
the `Unsupported method` error — naming the operation id and verb — is
raised only when that handler is invoked. -/
theorem c1_counterexample :
    buildHandler "" "op.trace" { path := "/x", method := "TRACE" }
      = { opId := "op.trace", method := "TRACE", templatePath := "/x",
          compiled := { parts := ["/x"], keys := [] } }
    ∧ invokeHandler (buildHandler "" "op.trace" { path := "/x", method := "TRACE" }) none
        = .error "Unsupported method TRACE for op.trace" := by
  refine ⟨by decide, by rfl⟩

/-- C1 (amended): for an operation whose mapping carries an HTTP verb
outside GET/POST/PUT/PATCH/DELETE/HEAD/OPTIONS (after uppercasing),
handler construction succeeds, and the error naming the operation id and
verb is raised when the handler is *invoked* (provided path-parameter
substitution itself does not throw first). -/
theorem c1_amended_unsupported_verb_errors_at_invocation
    (basePath opId : String) (m : OpMapping)
    (hverb : parseVerb (asciiUpper m.method) = none)
    (opts : Option ReqOptions) (out : String)
    (hpath : applyCompiled (buildHandler basePath opId m).compiled
        (buildHandler basePath opId m).templatePath
        (((opts.map normalizeRequestOptions).bind getParams).bind (fun p => p.path))
      = .ok out) :
    invokeHandler (buildHandler basePath opId m) opts
      = .error ("Unsupported method " ++ m.method ++ " for " ++ opId) := by
  rw [invokeHandler, hpath]
  have hm : (buildHandler basePath opId m).method = m.method := rfl
  have ho : (buildHandler basePath opId m).opId = opId := rfl
  rw [exceptBind_ok, hm, ho, hverb]

/-- Witness for C1 (amended) at the counterexample's concrete input. -/
theorem c1_witness :
    invokeHandler (buildHandler "/api/v4" "op.link" { path := "/y", method := "LINK" }) none
      = .error "Unsupported method LINK for op.link" :=
  c1_amended_unsupported_verb_errors_at_invocation "/api/v4" "op.link"
    { path := "/y", method := "LINK" } (by decide) none "/api/v4/y" (by rfl)

/-! ## Authentication middleware (`authHeaderMiddleware`) -/

/-- `toLowerCase` restricted to ASCII (header names are ASCII). -/
def asciiLower (s : String) : String := (s.toList.map Char.toLower).asString

/-- `Headers.prototype.has`: header-name comparison is case-insensitive. -/
def hasHeader (headers : List (String × String)) (name : String) : Bool :=
  headers.any (fun h => asciiLower h.1 = asciiLower name)

/-- `Headers.prototype.set`: replaces any entry with the same
(case-insensitive) name. -/
def setHeader (headers : List (String × String)) (name value : String) :
    List (String × String) :=
  headers.filter (fun h => !(asciiLower h.1 = asciiLower name)) ++ [(name, value)]

/-- An outgoing request as the middleware sees it: the URL's pathname, the
method, and the header list. -/
structure JsRequest where
  pathname : String
  method : String
  headers : List (String × String)
deriving DecidableEq

/-- Length of a leading `/api/v<digits>` segment (case-insensitive), or
`none` when the regex `^\x2fapi\x2fv\x5cd+` does not match. -/
def apiVersionSegLen (s : String) : Option Nat :=
  match s.toList with
  | c0 :: c1 :: c2 :: c3 :: c4 :: c5 :: rest =>
    if c0 = '/' && c1.toLower = 'a' && c2.toLower = 'p' && c3.toLower = 'i'
        && c4 = '/' && c5.toLower = 'v' then
      let ds := rest.takeWhile Char.isDigit
      if ds.isEmpty then none else some (6 + ds.length)
    else none
  | _ => none

/-- Embeds `stripBasePath`: strip the configured base path when it is a
prefix, otherwise a generic `/api/v<digits>` prefix; an emptied result
becomes `/` and the result always starts with `/`. -/
def stripBasePath (pathname basePath : String) : String :=
  let normalized :=
    if basePath ≠ "" && strStartsWith pathname basePath then
      let sliced := strDrop pathname basePath.length
      if sliced = "" then "/" else sliced
    else
      match apiVersionSegLen pathname with
      | some n =>
        let sliced := strDrop pathname n
        if sliced = "" then "/" else sliced
      | none => pathname
  let normalized := if strStartsWith normalized "/" then normalized else "/" ++ normalized
  if normalized = "" then "/" else normalized

/-- The override consulted for a request:
`authOverrides[pathname] ?? authOverrides[fullPathname]`. -/
def overrideFor (authOverrides : Option (List (String × String)))
    (pathname fullPathname : String) : Option String :=
  match authOverrides with
  | none => none
  | some m =>
    match alookup m pathname with
    | some v => some v
    | none => alookup m fullPathname

/-- Embeds the `shouldUseBasic` decision of the middleware: a `"basic"`
override forces Basic, an `"oauth2"` override forces Bearer, and otherwise
the compiled security map and the endpoint-suffix heuristics decide. -/
def decideBasic (compiled : CompiledSecurityMap) (override : Option String)
    (pathname method : String) : Bool :=
  if override = some "basic" then true
  else if override = some "oauth2" then false
  else
    let declaredSchemes := resolveSecuritySchemes compiled pathname method
    let allowsApiKey := declaredSchemes.contains "APIKey"
    let isChargeEndpoint :=
      strEndsWith pathname "/charge" || strEndsWith pathname "/p2p/charge"
    let isGuestUsersEndpoint := strEndsWith pathname "/guest_users"
    (if allowsApiKey then true else false) || isChargeEndpoint || isGuestUsersEndpoint

/-- The middleware's configuration: optional Basic credentials, an optional
access-token supplier (modelled by the token it would produce), and the
override table. -/
structure AuthConfig where
  basicAuth : Option (String × Option String)
  getAccessToken : Option String
  authOverrides : Option (List (String × String))

/-- The `username:password` string that is Base64-encoded for Basic auth
(the password defaults to the empty string). -/
def basicCredsString (user : String) (pass : Option String) : String :=
  user ++ ":" ++ pass.getD ""

/-- Embeds the middleware's `onRequest` hook.  `encode` abstracts the
platform Base64 routine (`btoa`/`Buffer`).  A request already carrying an
`Authorization` header is returned with its headers copied unchanged;
otherwise the pathname is normalised, overrides and the security map are
consulted, and a `Basic` or `Bearer` header is attached when a non-empty
token is available. -/
def onRequest (encode : String → String) (cfg : AuthConfig)
    (compiled : CompiledSecurityMap) (basePath : String) (req : JsRequest) :
    JsRequest :=
  if hasHeader req.headers "Authorization" then
    { req with headers := req.headers }
  else
    let fullPathname := req.pathname
    let pathname := stripBasePath fullPathname basePath
    let method := asciiUpper req.method
    let override := overrideFor cfg.authOverrides pathname fullPathname
    let shouldUseBasic := decideBasic compiled override pathname method
    match (if shouldUseBasic then cfg.basicAuth else none) with
    | some (user, pass) =>
      let token := encode (basicCredsString user pass)
      if token ≠ "" then
        { req with headers := setHeader req.headers "Authorization" ("Basic " ++ token) }
      else req
    | none =>
      match cfg.getAccessToken with
      | some t =>
        if t ≠ "" then
          { req with headers := setHeader req.headers "Authorization" ("Bearer " ++ t) }
        else req
      | none => req

/-- C3: a request that already carries an `Authorization` header is left
completely unmodified by the middleware, regardless of the configuration,
the security map, the base path or the overrides. -/
theorem c3_existing_auth_header_untouched (encode : String → String)
    (cfg : AuthConfig) (compiled : CompiledSecurityMap) (basePath : String)
    (req : JsRequest) (h : hasHeader req.headers "Authorization" = true) :
    onRequest encode cfg compiled basePath req = req := by
  rw [onRequest, if_pos h]

/-- Witness for C3: a fully configured client (Basic credentials, token
supplier, non-trivial security map) does not touch a request with a
caller-supplied `Authorization` header, even on a Basic-heuristic path. -/
theorem c3_witness :
    onRequest (fun s => s ++ "-b64")
      { basicAuth := some ("user", some "pw"), getAccessToken := some "tok",
        authOverrides := some [("/charge", "basic")] }
      { exact := [("/charge", [("POST", ["APIKey"])])], patterns := [] }
      "/api/v4"
      { pathname := "/api/v4/charge", method := "POST",
        headers := [("authorization", "Bearer caller-supplied")] }
      = { pathname := "/api/v4/charge", method := "POST",
          headers := [("authorization", "Bearer caller-supplied")] } :=
  c3_existing_auth_header_untouched (fun s => s ++ "-b64")
    { basicAuth := some ("user", some "pw"), getAccessToken := some "tok",
      authOverrides := some [("/charge", "basic")] }
    { exact := [("/charge", [("POST", ["APIKey"])])], patterns := [] }
    "/api/v4"
    { pathname := "/api/v4/charge", method := "POST",
      headers := [("authorization", "Bearer caller-supplied")] }
    (by decide)

/-- C6: with no override in effect (`none` or `"auto"`), the middleware
decides to use Basic auth exactly when the declared scheme set contains
`"APIKey"`, or the pathname ends with `/charge`, `/p2p/charge`, or
`/guest_users`. -/
theorem c6_basic_auth_decision (compiled : CompiledSecurityMap)
    (override : Option String) (pathname method : String)
    (h : override = none ∨ override = some "auto") :
    decideBasic compiled override pathname method = true ↔
      ((resolveSecuritySchemes compiled pathname method).contains "APIKey" = true
        ∨ strEndsWith pathname "/charge" = true
        ∨ strEndsWith pathname "/p2p/charge" = true
        ∨ strEndsWith pathname "/guest_users" = true) := by
  have h1 : ¬ override = some "basic" := by rcases h with h | h <;> simp [h]
  have h2 : ¬ override = some "oauth2" := by rcases h with h | h <;> simp [h]
  rw [decideBasic, if_neg h1, if_neg h2]
  by_cases hk : (resolveSecuritySchemes compiled pathname method).contains "APIKey" = true <;>
    simp [hk, Bool.or_eq_true, or_assoc]

/-- Witness for C6: with no security-map entry and no override, a `POST`
to `/p2p/charge` is decided to use Basic auth (suffix heuristic). -/
theorem c6_witness :
    decideBasic { exact := [], patterns := [] } none "/p2p/charge" "POST" = true :=
  (c6_basic_auth_decision { exact := [], patterns := [] } none "/p2p/charge" "POST"
    (Or.inl rfl)).mpr (Or.inr (Or.inl (by decide)))

/-! ## Basic-token memoisation (`resolveBasicToken`) -/

/-- One call of the closure returned by `resolveBasicToken`: a cached
token is returned as-is; otherwise `username:password` is encoded, cached
and returned.  The `Bool` reports whether the encoding routine ran. -/
def resolveBasicTokenCall (encode : String → String) (user : String)
    (pass : Option String) : Option String → String × Option String × Bool
  | some cached => (cached, some cached, false)
  | none =>
    let t := encode (basicCredsString user pass)
    (t, some t, true)

/-- `n` successive calls against the closure's cache cell, collecting the
returned tokens and counting how often the encoding routine ran. -/
def runBasicTokenCalls (encode : String → String) (user : String)
    (pass : Option String) : Nat → Option String → List String × Option String × Nat
  | 0, st => ([], st, 0)
  | n + 1, st =>
    let r := resolveBasicTokenCall encode user pass st
    let rest := runBasicTokenCalls encode user pass n r.2.1
    (r.1 :: rest.1, rest.2.1, (if r.2.2 then 1 else 0) + rest.2.2)

theorem runBasicTokenCalls_cached (encode : String → String) (user : String)
    (pass : Option String) (t : String) (n : Nat) :
    runBasicTokenCalls encode user pass n (some t) = (List.replicate n t, some t, 0) := by
  induction n with
  | zero => rfl
  | succ n ih =>
    simp [runBasicTokenCalls, resolveBasicTokenCall, ih, List.replicate]

/-- C8: from a fresh cache, any number of calls return the one Base64
token of `username:password` (password defaulting to empty), the cache
holds that very string, and the encoding routine runs exactly once — the
first call computes it, every later call returns the identical cached
string. -/
theorem c8_basic_token_memoized (encode : String → String) (user : String)
    (pass : Option String) (n : Nat) :
    runBasicTokenCalls encode user pass (n + 1) none
      = (List.replicate (n + 1) (encode (basicCredsString user pass)),
         some (encode (basicCredsString user pass)), 1) := by
  simp [runBasicTokenCalls, resolveBasicTokenCall, runBasicTokenCalls_cached,
    List.replicate]

end TrustapSDK
